import Mathlib

/-
Verification of the duplicate-person and bulk-upload workflows of the
`workshops` Django application (file `workshops/views.py`).

The relevant views are embedded shallowly:

* `person_find_duplicates` (GET branch, lines 382-406): the duplicate
  candidate query and the grouping dictionary.
* `person_find_duplicates` (POST branch, lines 407-448): the selected-id
  grouping, the `len(v) > 1` restriction, and the per-group merge loop.
* `person_bulk_add` (POST branch, lines 242-269): handling of the CSV
  parser's outcome.
* `person_bulk_add_confirmation` (POST branch, lines 294-363): the
  index-aligned record update loop and the verify/confirm control flow.
* `_get_pagination_items` (lines 744-778) together with the behaviour of
  Django 1.7's `Paginator` (an external library collaborator).

Functions that `views.py` imports from `workshops.util` and
`workshops.models` (`merge_model_objects`, `verify_upload_person_task`,
`create_uploaded_persons_tasks`, `upload_person_task_csv`,
`Person.get_first_last`) are not part of the sources under review; each is
modelled from the specification and marked as such in its doc comment.

Django querysets are modelled as Lean lists, the relational store as a
structure of lists, session state as an `Option` value, and exceptions as
`Option`/`Except` results.
-/

namespace Amy

/-- A `Person` row, with the fields the duplicate-finder views read
(`id`, `personal`, `family`).  The model class itself lives in
`workshops/models.py`, outside the sources under review. -/
structure Person where
  id : Nat
  personal : String
  family : String
deriving DecidableEq, Repr

/-- Modelled from the spec: `Person.get_first_last` (workshops/models.py is
not in the sources).  Section 4.4 groups the selected persons "by the exact
(personal, family) pair", so the grouping key is modelled as that pair. -/
def get_first_last (p : Person) : String × String :=
  (p.personal, p.family)

/-- Strict lexicographic order on character lists (the order `<` on
`String` denotes, written out so that it evaluates). -/
def charsLt : List Char → List Char → Bool
  | [], [] => false
  | [], _ :: _ => true
  | _ :: _, [] => false
  | c :: cs, d :: ds =>
    if c.toNat < d.toNat then true
    else if d.toNat < c.toNat then false
    else charsLt cs ds

/-- Strict lexicographic order on strings. -/
def strLt (a b : String) : Bool :=
  charsLt a.data b.data

/-- Lexicographic comparison on (personal, family), the sort key of
`order_by('personal', 'family')`. -/
def personLe (p q : Person) : Bool :=
  strLt p.personal q.personal ||
    (decide (p.personal = q.personal) &&
      (strLt p.family q.family || decide (p.family = q.family)))

/-- Insert into a list sorted by `personLe`. -/
def insertSorted (p : Person) : List Person → List Person
  | [] => [p]
  | q :: rest => if personLe p q then p :: q :: rest else q :: insertSorted p rest

/-- `order_by('personal', 'family')` on a queryset, modelled as an
insertion sort. -/
def order_by_personal_family (l : List Person) : List Person :=
  l.foldr insertSorted []

/-- Number of rows whose `personal` equals `v`
(`values('personal').annotate(Count('personal'))` for one value). -/
def countPersonal (persons : List Person) (v : String) : Nat :=
  (persons.filter (fun p => decide (p.personal = v))).length

/-- Number of rows whose `family` equals `v`. -/
def countFamily (persons : List Person) (v : String) : Nat :=
  (persons.filter (fun p => decide (p.family = v))).length

/-- views.py lines 383-386: the distinct `personal` values occurring on
more than one row. -/
def dupes_personal (persons : List Person) : List String :=
  ((persons.map Person.personal).dedup).filter
    (fun v => decide (1 < countPersonal persons v))

/-- views.py lines 387-390: the distinct `family` values occurring on more
than one row. -/
def dupes_family (persons : List Person) : List String :=
  ((persons.map Person.family).dedup).filter
    (fun v => decide (1 < countFamily persons v))

/-- views.py lines 392-395: persons whose `personal` is in
`dupes_personal` and whose `family` is in `dupes_family`, ordered by
(personal, family). -/
def dupes (persons : List Person) : List Person :=
  order_by_personal_family
    (persons.filter (fun p =>
      decide (p.personal ∈ dupes_personal persons) &&
        decide (p.family ∈ dupes_family persons)))

/-- views.py lines 398-401 and 412-416: `groups[key].append(person)` with
`groups[key] = []` on first sight of `key`; an insertion-ordered
association list. -/
def insertGroup (gs : List ((String × String) × List Person))
    (key : String × String) (p : Person) :
    List ((String × String) × List Person) :=
  match gs with
  | [] => [(key, [p])]
  | (k, ps) :: rest =>
    if k = key then (k, ps ++ [p]) :: rest else (k, ps) :: insertGroup rest key p

/-- The grouping loop shared by both branches of `person_find_duplicates`:
fold the person list into a key-indexed dictionary. -/
def buildGroups (l : List Person) : List ((String × String) × List Person) :=
  l.foldl (fun gs p => insertGroup gs (get_first_last p) p) []

/-- views.py lines 396-401: the groups shown by the GET (initial scan)
branch. -/
def groups_get (persons : List Person) :
    List ((String × String) × List Person) :=
  buildGroups (dupes persons)

/-- views.py lines 408-410: the persons whose ids were posted as selected
checkboxes, ordered by (personal, family). -/
def selected_dupes (persons : List Person) (ids : List Nat) : List Person :=
  order_by_personal_family (persons.filter (fun p => decide (p.id ∈ ids)))

/-- views.py lines 411-417: the confirmation-path groups, keeping only
groups with more than one member. -/
def groups_post (persons : List Person) (ids : List Nat) :
    List ((String × String) × List Person) :=
  (buildGroups (selected_dupes persons ids)).filter
    (fun kg => decide (1 < kg.2.length))

/-! ### Helper lemmas for the duplicate finder -/

lemma mem_insertSorted {a p : Person} {l : List Person} :
    a ∈ insertSorted p l ↔ a = p ∨ a ∈ l := by
  induction l with
  | nil => simp [insertSorted]
  | cons q rest ih =>
    simp only [insertSorted]
    split
    · simp
    · simp [ih]
      tauto

lemma mem_order_by {a : Person} {l : List Person} :
    a ∈ order_by_personal_family l ↔ a ∈ l := by
  induction l with
  | nil => simp [order_by_personal_family]
  | cons q rest ih =>
    simp only [order_by_personal_family, List.foldr] at ih ⊢
    rw [mem_insertSorted, ih]
    simp

lemma one_lt_length_of_mem_ne {α : Type} {l : List α} {a b : α}
    (ha : a ∈ l) (hb : b ∈ l) (hne : a ≠ b) : 1 < l.length := by
  match l with
  | [] => cases ha
  | [x] =>
    simp at ha hb
    exact absurd (ha.trans hb.symm) hne
  | x :: y :: t =>
    simp only [List.length_cons]
    omega

lemma exists_cons_cons_of_one_lt {α : Type} {l : List α}
    (h : 1 < l.length) : ∃ a b t, l = a :: b :: t := by
  match l with
  | [] => simp at h
  | [x] => simp at h
  | a :: b :: t => exact ⟨a, b, t, rfl⟩

/-- Row count above one for a field value is the same as the existence of a
second row (with a different id) agreeing on that field. -/
lemma count_shared_iff (f : Person → String) (persons : List Person)
    (p : Person) (hid : (persons.map Person.id).Nodup) (hp : p ∈ persons) :
    1 < (persons.filter (fun q => decide (f q = f p))).length ↔
      ∃ q ∈ persons, q.id ≠ p.id ∧ f q = f p := by
  constructor
  · intro h
    by_contra hno
    push_neg at hno
    have hall : ∀ q ∈ persons.filter (fun q => decide (f q = f p)),
        q.id = p.id := by
      intro q hq
      rw [List.mem_filter] at hq
      have hfq : f q = f p := by simpa using hq.2
      by_contra hne
      exact hno q hq.1 hne hfq
    have hsub : (persons.filter (fun q => decide (f q = f p))).Sublist persons :=
      List.filter_sublist _
    have hnodup :
        ((persons.filter (fun q => decide (f q = f p))).map Person.id).Nodup :=
      (hsub.map Person.id).nodup hid
    obtain ⟨a, b, t, heq⟩ := exists_cons_cons_of_one_lt h
    have ha : a ∈ persons.filter (fun q => decide (f q = f p)) := by
      rw [heq]; simp
    have hb : b ∈ persons.filter (fun q => decide (f q = f p)) := by
      rw [heq]; simp
    rw [heq] at hnodup
    simp [List.nodup_cons] at hnodup
    exact hnodup.1.1 ((hall a ha).trans (hall b hb).symm)
  · rintro ⟨q, hq, hne, hf⟩
    have hpmem : p ∈ persons.filter (fun q => decide (f q = f p)) :=
      List.mem_filter.mpr ⟨hp, by simp⟩
    have hqmem : q ∈ persons.filter (fun q' => decide (f q' = f p)) :=
      List.mem_filter.mpr ⟨hq, by simp [hf]⟩
    refine one_lt_length_of_mem_ne hpmem hqmem ?_
    intro h
    exact hne (by rw [← h])

lemma mem_dupes_personal {persons : List Person} {v : String} :
    v ∈ dupes_personal persons ↔
      v ∈ persons.map Person.personal ∧ 1 < countPersonal persons v := by
  simp [dupes_personal, List.mem_filter]

lemma mem_dupes_family {persons : List Person} {v : String} :
    v ∈ dupes_family persons ↔
      v ∈ persons.map Person.family ∧ 1 < countFamily persons v := by
  simp [dupes_family, List.mem_filter]

lemma mem_dupes {persons : List Person} {p : Person} :
    p ∈ dupes persons ↔
      p ∈ persons ∧ p.personal ∈ dupes_personal persons ∧
        p.family ∈ dupes_family persons := by
  simp [dupes, mem_order_by, List.mem_filter, and_assoc]

/-- Soundness of `insertGroup`: inserting an element carrying its own key
preserves "every group member satisfies `Q` and matches the group key". -/
lemma insertGroup_sound {Q : Person → Prop}
    {key0 : String × String} {p0 : Person}
    (hp0 : Q p0) (hk : get_first_last p0 = key0) :
    ∀ (gs : List ((String × String) × List Person)),
      (∀ key g, (key, g) ∈ gs → ∀ q ∈ g, Q q ∧ get_first_last q = key) →
      ∀ key g, (key, g) ∈ insertGroup gs key0 p0 →
        ∀ q ∈ g, Q q ∧ get_first_last q = key := by
  intro gs
  induction gs with
  | nil =>
    intro hgs key g hmem q hq
    simp [insertGroup] at hmem
    obtain ⟨hk', hg⟩ := hmem
    subst hg
    simp at hq
    subst hq
    exact ⟨hp0, hk.trans hk'.symm⟩
  | cons hd tl ih =>
    intro hgs key g hmem q hq
    obtain ⟨k, ps⟩ := hd
    simp only [insertGroup] at hmem
    by_cases hkk : k = key0
    · rw [if_pos hkk] at hmem
      rcases List.mem_cons.mp hmem with heq | htl
      · rw [Prod.mk.injEq] at heq
        obtain ⟨hk1, hg1⟩ := heq
        rw [hg1] at hq
        rcases List.mem_append.mp hq with hin | hsing
        · have hmember := hgs k ps (List.mem_cons_self _ _) q hin
          exact ⟨hmember.1, hmember.2.trans hk1.symm⟩
        · simp at hsing
          subst hsing
          exact ⟨hp0, (hk.trans hkk.symm).trans hk1.symm⟩
      · exact hgs key g (List.mem_cons_of_mem _ htl) q hq
    · rw [if_neg hkk] at hmem
      rcases List.mem_cons.mp hmem with heq | htl
      · rw [Prod.mk.injEq] at heq
        obtain ⟨hk1, hg1⟩ := heq
        rw [hg1] at hq
        have hmember := hgs k ps (List.mem_cons_self _ _) q hq
        exact ⟨hmember.1, hmember.2.trans hk1.symm⟩
      · exact ih (fun key g hm => hgs key g (List.mem_cons_of_mem _ hm))
          key g htl q hq

/-- Soundness of the grouping loop: every member of a group comes from the
input list and has the group's key. -/
lemma buildGroups_sound (l : List Person) :
    ∀ key g, (key, g) ∈ buildGroups l →
      ∀ q ∈ g, q ∈ l ∧ get_first_last q = key := by
  suffices h : ∀ (l2 : List Person)
      (acc : List ((String × String) × List Person)),
      (∀ key g, (key, g) ∈ acc → ∀ q ∈ g, q ∈ l ∧ get_first_last q = key) →
      (∀ p ∈ l2, p ∈ l) →
      ∀ key g,
        (key, g) ∈ l2.foldl (fun gs p => insertGroup gs (get_first_last p) p) acc →
        ∀ q ∈ g, q ∈ l ∧ get_first_last q = key by
    intro key g hmem
    exact h l [] (by simp) (fun _ hx => hx) key g hmem
  intro l2
  induction l2 with
  | nil =>
    intro acc hacc _ key g hm
    exact hacc key g hm
  | cons p tl ih =>
    intro acc hacc hsub key g hm q hq
    exact ih (insertGroup acc (get_first_last p) p)
      (insertGroup_sound (hsub p (by simp)) rfl acc hacc)
      (fun x hx => hsub x (by simp [hx])) key g hm q hq

/-! ### Claims C1, C2, C5 -/

/-- C1: the duplicate finder selects exactly the persons whose personal
name is shared with at least one other person and whose family name is
shared with at least one other (not necessarily the same) person. -/
theorem c1_duplicate_selection (persons : List Person) (p : Person)
    (hid : (persons.map Person.id).Nodup) (hp : p ∈ persons) :
    p ∈ dupes persons ↔
      (∃ q ∈ persons, q.id ≠ p.id ∧ q.personal = p.personal) ∧
        (∃ q ∈ persons, q.id ≠ p.id ∧ q.family = p.family) := by
  rw [mem_dupes, mem_dupes_personal, mem_dupes_family]
  have h1 := count_shared_iff Person.personal persons p hid hp
  have h2 := count_shared_iff Person.family persons p hid hp
  simp only [countPersonal, countFamily] at *
  constructor
  · rintro ⟨-, ⟨-, hc1⟩, ⟨-, hc2⟩⟩
    exact ⟨h1.mp hc1, h2.mp hc2⟩
  · rintro ⟨e1, e2⟩
    exact ⟨hp, ⟨List.mem_map_of_mem _ hp, h1.mpr e1⟩,
      ⟨List.mem_map_of_mem _ hp, h2.mpr e2⟩⟩

/-- C1 witness: with two persons named Harry Potter and one Harry Weasley
(and no other Weasley), Harry Weasley is not selected — via
`c1_duplicate_selection` — and the two Harry Potter rows form one group. -/
theorem c1_duplicate_selection_witness :
    ((⟨3, "Harry", "Weasley"⟩ : Person) ∉
      dupes [⟨1, "Harry", "Potter"⟩, ⟨2, "Harry", "Potter"⟩,
        ⟨3, "Harry", "Weasley"⟩]) ∧
    groups_get [⟨1, "Harry", "Potter"⟩, ⟨2, "Harry", "Potter"⟩,
        ⟨3, "Harry", "Weasley"⟩] =
      [(("Harry", "Potter"),
        [⟨1, "Harry", "Potter"⟩, ⟨2, "Harry", "Potter"⟩])] := by
  refine ⟨fun h => ?_, by decide⟩
  have := (c1_duplicate_selection
    [⟨1, "Harry", "Potter"⟩, ⟨2, "Harry", "Potter"⟩, ⟨3, "Harry", "Weasley"⟩]
    ⟨3, "Harry", "Weasley"⟩ (by decide) (by decide)).mp h
  exact absurd this.2 (by decide)

/-- C2: on both the initial scan path and the confirmation path, any two
members of one duplicate group agree on personal and family name. -/
theorem c2_group_invariant (persons : List Person) (ids : List Nat)
    (key : String × String) (g : List Person) (p q : Person)
    (hg : (key, g) ∈ groups_get persons ∨ (key, g) ∈ groups_post persons ids)
    (hp : p ∈ g) (hq : q ∈ g) :
    p.personal = q.personal ∧ p.family = q.family := by
  have hmem : (key, g) ∈ buildGroups (dupes persons) ∨
      (key, g) ∈ buildGroups (selected_dupes persons ids) := by
    rcases hg with h | h
    · exact Or.inl h
    · exact Or.inr (List.mem_filter.mp h).1
  have hkey : get_first_last p = key ∧ get_first_last q = key := by
    rcases hmem with h | h
    · exact ⟨(buildGroups_sound _ key g h p hp).2,
        (buildGroups_sound _ key g h q hq).2⟩
    · exact ⟨(buildGroups_sound _ key g h p hp).2,
        (buildGroups_sound _ key g h q hq).2⟩
  have hpq : get_first_last p = get_first_last q := hkey.1.trans hkey.2.symm
  simpa [get_first_last, Prod.ext_iff] using hpq

/-- C2 witness: `c2_group_invariant` applied to a concrete two-member
group on the initial scan path. -/
theorem c2_group_invariant_witness :
    (⟨1, "Alice", "Smith"⟩ : Person).personal =
        (⟨2, "Alice", "Smith"⟩ : Person).personal ∧
      (⟨1, "Alice", "Smith"⟩ : Person).family =
        (⟨2, "Alice", "Smith"⟩ : Person).family :=
  c2_group_invariant [⟨1, "Alice", "Smith"⟩, ⟨2, "Alice", "Smith"⟩] []
    ("Alice", "Smith") [⟨1, "Alice", "Smith"⟩, ⟨2, "Alice", "Smith"⟩]
    ⟨1, "Alice", "Smith"⟩ ⟨2, "Alice", "Smith"⟩
    (Or.inl (by decide)) (by decide) (by decide)

/-- C5: on the confirmation path a group is kept exactly when it still has
more than one member, and every kept group is formed from the posted
selection. -/
theorem c5_confirmation_groups (persons : List Person) (ids : List Nat)
    (key : String × String) (g : List Person) :
    ((key, g) ∈ groups_post persons ids ↔
      (key, g) ∈ buildGroups (selected_dupes persons ids) ∧ 1 < g.length) ∧
    (∀ p, (key, g) ∈ groups_post persons ids → p ∈ g →
      p ∈ persons ∧ p.id ∈ ids) := by
  constructor
  · simp [groups_post, List.mem_filter]
  · intro p hmem hp
    have h1 := (List.mem_filter.mp hmem).1
    have h2 := (buildGroups_sound _ key g h1 p hp).1
    simpa [selected_dupes, mem_order_by, List.mem_filter] using h2

/-- C5 witness: `c5_confirmation_groups` at a concrete selection — the
two-member group is kept, the singleton group is dropped. -/
theorem c5_confirmation_groups_witness :
    ((("Alice", "Smith"),
        [(⟨1, "Alice", "Smith"⟩ : Person), ⟨2, "Alice", "Smith"⟩]) ∈
      groups_post
        [⟨1, "Alice", "Smith"⟩, ⟨2, "Alice", "Smith"⟩, ⟨3, "Carol", "Dow"⟩]
        [1, 2, 3]) ∧
    ((("Carol", "Dow"), [(⟨3, "Carol", "Dow"⟩ : Person)]) ∉
      groups_post
        [⟨1, "Alice", "Smith"⟩, ⟨2, "Alice", "Smith"⟩, ⟨3, "Carol", "Dow"⟩]
        [1, 2, 3]) :=
  ⟨(c5_confirmation_groups
      [⟨1, "Alice", "Smith"⟩, ⟨2, "Alice", "Smith"⟩, ⟨3, "Carol", "Dow"⟩]
      [1, 2, 3] ("Alice", "Smith")
      [⟨1, "Alice", "Smith"⟩, ⟨2, "Alice", "Smith"⟩]).1.mpr (by decide),
    by decide⟩

/-! ### The merge path of `person_find_duplicates` (views.py lines 429-448) -/

/-- A `Task` row as seen by the merger: a foreign key to a `Person`
together with the other columns that make the row unique. -/
structure MTask where
  id : Nat
  eventId : Nat
  personId : Nat
  roleId : Nat
deriving DecidableEq, Repr

/-- An `Award` row as seen by the merger. -/
structure MAward where
  id : Nat
  personId : Nat
  badgeId : Nat
deriving DecidableEq, Repr

/-- The slice of the relational store the merge path touches. -/
structure MergeStore where
  persons : List Person
  tasks : List MTask
  awards : List MAward
deriving DecidableEq, Repr

/-- Keep the first `Task` row for each value of the (event, person, role)
uniqueness key, dropping later conflicting duplicates — "kept once",
spec 4.5. -/
def dedupTasksAux : List (Nat × Nat × Nat) → List MTask → List MTask
  | _, [] => []
  | seen, t :: ts =>
    if (t.eventId, t.personId, t.roleId) ∈ seen then dedupTasksAux seen ts
    else t :: dedupTasksAux ((t.eventId, t.personId, t.roleId) :: seen) ts

/-- Keep the first `Award` row for each value of the (person, badge)
uniqueness key, dropping later conflicting duplicates. -/
def dedupAwardsAux : List (Nat × Nat) → List MAward → List MAward
  | _, [] => []
  | seen, a :: as2 =>
    if (a.personId, a.badgeId) ∈ seen then dedupAwardsAux seen as2
    else a :: dedupAwardsAux ((a.personId, a.badgeId) :: seen) as2

/-- Modelled from the spec: `merge_model_objects` (workshops/util.py is not
in the sources).  Section 4.5: every row holding a foreign key to a
duplicate is repointed to the primary, then each duplicate `Person` is
deleted; rows that the repointing makes collide on a uniqueness constraint
(`Task` (event, person, role), `Award` (person, badge)) are the spec's
reconcilable conflicts and are de-duplicated — kept once — rather than
raising.  The spec reserves an abort for irreconcilable conflicts but
names none for these rows, so this model always succeeds; the `Option`
result preserves the failure contract of the real function, whose
exceptions the view catches (views.py line 443). -/
def merge_model_objects (primary : Person) (dups : List Person)
    (s : MergeStore) : Option MergeStore :=
  let dupIds := dups.map Person.id
  let tasks2 := s.tasks.map (fun t =>
    if t.personId ∈ dupIds then { t with personId := primary.id } else t)
  let awards2 := s.awards.map (fun a =>
    if a.personId ∈ dupIds then { a with personId := primary.id } else a)
  some { persons := s.persons.filter (fun p => decide (p.id ∉ dupIds))
       , tasks := dedupTasksAux [] tasks2
       , awards := dedupAwardsAux [] awards2 }

/-- views.py lines 433-437: scan the group for the posted primary id and
remove the found person from the group.  (The Python loop removes the
element while iterating; on a queryset-derived group, whose ids are
pairwise distinct, that is exactly "find the first match and erase it".) -/
def findAndRemovePrimary (pid : Int) (group : List Person) :
    Option Person × List Person :=
  match group.find? (fun p => decide ((p.id : Int) = pid)) with
  | none => (none, group)
  | some p => (some p, group.eraseP (fun q => decide ((q.id : Int) = pid)))

/-- Outcome of the confirm branch: the message/redirect the user sees. -/
inductive DupesConfirmResult
  | mergeSuccess
  | primaryInvalid (pid : Int)
  | mergeFailed
  | postError
deriving DecidableEq, Repr

/-- views.py lines 430-448: the per-group merge loop of the confirm
branch.  `μ` is the merger (`merge_model_objects`); `primaryOf key` is
`int(request.POST[key + "_primary"])`, `none` standing for the uncaught
`KeyError`/`ValueError` of a missing or non-numeric field.  Each
successful merge commits immediately (the loop is not wrapped in a
transaction); a merge failure stops the loop with the store as mutated so
far and the message 'Merge failed, nothing was changed'. -/
def confirmLoop (μ : Person → List Person → MergeStore → Option MergeStore)
    (primaryOf : String × String → Option Int) :
    MergeStore → List ((String × String) × List Person) →
      MergeStore × DupesConfirmResult
  | s, [] => (s, .mergeSuccess)
  | s, (key, group) :: rest =>
    match primaryOf key with
    | none => (s, .postError)
    | some pid =>
      match findAndRemovePrimary pid group with
      | (none, _) => (s, .primaryInvalid pid)
      | (some primary, grp) =>
        match μ primary grp s with
        | none => (s, .mergeFailed)
        | some s2 => confirmLoop μ primaryOf s2 rest

/-- The whole confirm path: group the posted selection (views.py lines
408-417) and run the merge loop (lines 430-448). -/
def person_find_duplicates_confirm (s : MergeStore) (selectedIds : List Nat)
    (primaryOf : String × String → Option Int) :
    MergeStore × DupesConfirmResult :=
  confirmLoop merge_model_objects primaryOf s
    (groups_post s.persons selectedIds)

/-! ### Claims C3 and C4 -/

/-- C3 counterexample: a merge request whose designated primary (id 1)
appears inside its own duplicate group succeeds — the primary is removed
from the group and the other member is merged into it, changing the Data
Store — instead of failing with a validation error. -/
theorem c3_primary_in_group_counterexample :
    person_find_duplicates_confirm
        ⟨[⟨1, "Alice", "Smith"⟩, ⟨2, "Alice", "Smith"⟩], [⟨10, 1, 2, 1⟩], []⟩
        [1, 2]
        (fun k => if k = ("Alice", "Smith") then some 1 else none) =
      (⟨[⟨1, "Alice", "Smith"⟩], [⟨10, 1, 1, 1⟩], []⟩, .mergeSuccess) ∧
    (⟨[⟨1, "Alice", "Smith"⟩], [⟨10, 1, 1, 1⟩], []⟩ : MergeStore) ≠
      ⟨[⟨1, "Alice", "Smith"⟩, ⟨2, "Alice", "Smith"⟩], [⟨10, 1, 2, 1⟩], []⟩ := by
  constructor
  · rfl
  · decide

/-- C3 amended: it is a designated primary that does NOT appear in its
group that makes the request fail — with the message 'Primary not valid:
pid not in group' — and when this happens on the first group processed the
Data Store is left unchanged.  (A primary inside its group is removed from
the duplicate list and the merge proceeds.) -/
theorem c3_primary_not_in_group
    (μ : Person → List Person → MergeStore → Option MergeStore)
    (s : MergeStore) (primaryOf : String × String → Option Int)
    (key : String × String) (group : List Person)
    (rest : List ((String × String) × List Person)) (pid : Int)
    (h1 : primaryOf key = some pid)
    (h2 : ∀ p ∈ group, (p.id : Int) ≠ pid) :
    confirmLoop μ primaryOf s ((key, group) :: rest) =
      (s, .primaryInvalid pid) := by
  have hfind : group.find? (fun p => decide ((p.id : Int) = pid)) = none := by
    rw [List.find?_eq_none]
    intro p hp
    simpa using h2 p hp
  simp [confirmLoop, h1, findAndRemovePrimary, hfind]

/-- C3 amended witness: `c3_primary_not_in_group` at a concrete request
whose posted primary id (7) is in no group member. -/
theorem c3_primary_not_in_group_witness :
    confirmLoop merge_model_objects
        (fun _ => some 7)
        ⟨[⟨1, "Alice", "Smith"⟩, ⟨2, "Alice", "Smith"⟩], [], []⟩
        [(("Alice", "Smith"), [⟨1, "Alice", "Smith"⟩, ⟨2, "Alice", "Smith"⟩])] =
      (⟨[⟨1, "Alice", "Smith"⟩, ⟨2, "Alice", "Smith"⟩], [], []⟩,
        .primaryInvalid 7) :=
  c3_primary_not_in_group merge_model_objects
    ⟨[⟨1, "Alice", "Smith"⟩, ⟨2, "Alice", "Smith"⟩], [], []⟩
    (fun _ => some 7) ("Alice", "Smith")
    [⟨1, "Alice", "Smith"⟩, ⟨2, "Alice", "Smith"⟩] [] 7 rfl (by decide)

/-- C4: a confirmed request covering two groups is NOT all-or-nothing.
The loop mutates the store group by group with no enclosing transaction:
merging the Alice group succeeds (task 10 repointed to person 1, person 2
deleted); the Bob group's posted primary (9) is then found in no group
member, so the loop stops with 'Primary not valid: 9 not in group' and
redirects — with the Alice merge already committed, the store differs
from its pre-request state although the requested set did not succeed.
This run uses only view code present in the sources: the merge itself is
conflict-free and succeeds under any merger. -/
theorem c4_partial_merge_on_invalid_primary :
    person_find_duplicates_confirm
        ⟨[⟨1, "Alice", "Smith"⟩, ⟨2, "Alice", "Smith"⟩,
          ⟨3, "Bob", "Jones"⟩, ⟨4, "Bob", "Jones"⟩],
         [⟨10, 1, 2, 1⟩], []⟩
        [1, 2, 3, 4]
        (fun k =>
          if k = ("Alice", "Smith") then some 1
          else if k = ("Bob", "Jones") then some 9 else none) =
      (⟨[⟨1, "Alice", "Smith"⟩, ⟨3, "Bob", "Jones"⟩, ⟨4, "Bob", "Jones"⟩],
        [⟨10, 1, 1, 1⟩], []⟩, .primaryInvalid 9) ∧
    (⟨[⟨1, "Alice", "Smith"⟩, ⟨3, "Bob", "Jones"⟩, ⟨4, "Bob", "Jones"⟩],
        [⟨10, 1, 1, 1⟩], []⟩ : MergeStore) ≠
      ⟨[⟨1, "Alice", "Smith"⟩, ⟨2, "Alice", "Smith"⟩,
          ⟨3, "Bob", "Jones"⟩, ⟨4, "Bob", "Jones"⟩],
        [⟨10, 1, 2, 1⟩], []⟩ := by
  constructor
  · rfl
  · decide

/-! ### Bulk upload (views.py lines 240-377) -/

/-- A Staged Upload Record, the session-scoped dictionary
`{personal, middle, family, email, event, role, errors}`.  Optional
string-valued fields are `Option String`: `none` is Python's `None`,
`some ""` is the empty string.  `errors` is `none` until verified,
otherwise the list of error messages. -/
structure UploadRecord where
  personal : String
  middle : Option String
  family : String
  email : Option String
  event : Option String
  role : Option String
  errors : Option (List String)
deriving DecidableEq, Repr

/-- views.py lines 303-317: one iteration of the confirmation-form update
loop.  `middle or None` and `email or None` turn the empty string into
`None`; `event` and `role` take the posted value unconditionally (the
code's comment: an empty string must be accepted so the user can drop the
related event); `errors` is reset to `None`. -/
def updateRecord (personal middle family email event role : String) :
    UploadRecord :=
  { personal := personal
  , middle := if middle = "" then none else some middle
  , family := family
  , email := if email = "" then none else some email
  , event := some event
  , role := some role
  , errors := none }

/-- Python's `zip` over the six posted value lists (views.py line 302):
truncates to the shortest list. -/
def zip6 : List String → List String → List String → List String →
    List String → List String →
    List (String × String × String × String × String × String)
  | p :: ps, m :: ms, f :: fs, e :: es, ev :: evs, r :: rs =>
    (p, m, f, e, ev, r) :: zip6 ps ms fs es evs rs
  | _, _, _, _, _, _ => []

/-- views.py lines 303-317: `for k, record in enumerate(data_update):
persons_tasks[k] = {...}`.  Assigning index `k` of a Python list raises
`IndexError` when `k` is out of range, modelled by `none`. -/
def applyUpdates : List UploadRecord →
    List (String × String × String × String × String × String) →
    Option (List UploadRecord)
  | recs, [] => some recs
  | [], _ :: _ => none
  | _ :: rs, (p, m, f, e, ev, r) :: us =>
    (applyUpdates rs us).map (fun l => updateRecord p m f e ev r :: l)

/-- `field or None` seen as a predicate: the non-empty payload of an
optional field. -/
def optNonempty : Option String → Option String
  | some "" => none
  | o => o

/-- Modelled from the spec: the per-record checks of
`verify_upload_person_task` (workshops/util.py is not in the sources).
Section 4.2: personal and family name non-empty; email, if present, in a
basic address syntax (an '@' present); a non-empty event reference must
exist; a non-empty role reference must exist.  Error messages are kept as
a flat list. -/
def recordErrors (events roles : List String) (r : UploadRecord) :
    List String :=
  (if r.personal = "" then ["personal name missing"] else []) ++
  (if r.family = "" then ["family name missing"] else []) ++
  (match optNonempty r.email with
   | some e => if e.contains '@' then [] else ["invalid email"]
   | none => []) ++
  (match optNonempty r.event with
   | some ev => if ev ∈ events then [] else ["event does not exist"]
   | none => []) ++
  (match optNonempty r.role with
   | some ro => if ro ∈ roles then [] else ["role does not exist"]
   | none => [])

/-- Modelled from the spec: `verify_upload_person_task` (workshops/util.py
is not in the sources).  Section 4.2: populates each record's `errors`
annotation and returns whether any record has at least one error;
idempotent, so callable repeatedly.  (The exact-duplicate-row warning of
the spec is not an error and is not modelled.) -/
def verify_upload_person_task (events roles : List String)
    (recs : List UploadRecord) : List UploadRecord × Bool :=
  let recs2 := recs.map
    (fun r => { r with errors := some (recordErrors events roles r) })
  (recs2, recs2.any (fun r => !(r.errors.getD []).isEmpty))

/-- A `Person` row as the committer sees it. -/
structure CPerson where
  id : Nat
  personal : String
  family : String
  email : Option String
deriving DecidableEq, Repr

/-- A `Task` row as the committer sees it: the unique
(person, event, role) triple. -/
structure CTask where
  personId : Nat
  eventSlug : String
  roleName : String
deriving DecidableEq, Repr

/-- The slice of the relational store the bulk-upload commit touches;
`nextId` models the id sequence of the Person table. -/
structure CStore where
  persons : List CPerson
  events : List String
  roles : List String
  tasks : List CTask
  nextId : Nat
deriving DecidableEq, Repr

/-- The exception classes the confirm branch catches
(views.py line 346). -/
inductive DBError
  | integrityError
  | objectDoesNotExist
  | internalError
deriving DecidableEq, Repr

/-- Modelled from the spec: the record-by-record body of
`create_uploaded_persons_tasks` (workshops/util.py is not in the
sources).  Section 4.3: reuse a Person found by email, else create one; if
the record names an event and role, create the Task unless an identical
one exists; a named event or role that does not exist surfaces the Data
Store's `ObjectDoesNotExist`. -/
def commitRecords : CStore → Nat → Nat → List UploadRecord →
    Except DBError (CStore × Nat × Nat)
  | s, np, nt, [] => .ok (s, np, nt)
  | s, np, nt, r :: rest =>
    let found : Option CPerson := match r.email with
      | some e => s.persons.find? (fun p => p.email == some e)
      | none => none
    let step : Nat × CStore × Nat := match found with
      | some p => (p.id, s, np)
      | none =>
        (s.nextId,
         { s with
             persons :=
               s.persons ++ [(⟨s.nextId, r.personal, r.family, r.email⟩ : CPerson)]
           , nextId := s.nextId + 1 },
         np + 1)
    let pid := step.1
    let s1 := step.2.1
    let np1 := step.2.2
    match optNonempty r.event, optNonempty r.role with
    | some ev, some ro =>
      if ev ∈ s1.events then
        if ro ∈ s1.roles then
          if (⟨pid, ev, ro⟩ : CTask) ∈ s1.tasks then
            commitRecords s1 np1 nt rest
          else
            commitRecords
              { s1 with tasks := s1.tasks ++ [⟨pid, ev, ro⟩] } np1 (nt + 1) rest
        else .error .objectDoesNotExist
      else .error .objectDoesNotExist
    | some ev, none =>
      if ev ∈ s1.events then commitRecords s1 np1 nt rest
      else .error .objectDoesNotExist
    | none, some ro =>
      if ro ∈ s1.roles then commitRecords s1 np1 nt rest
      else .error .objectDoesNotExist
    | none, none => commitRecords s1 np1 nt rest

/-- Modelled from the spec: `create_uploaded_persons_tasks`
(workshops/util.py is not in the sources).  Section 4.3: the whole batch
commits inside one transaction — the result is either the fully updated
store with the counts of persons and tasks created, or an error with the
store untouched (nothing partially written). -/
def create_uploaded_persons_tasks (s : CStore) (recs : List UploadRecord) :
    Except DBError (CStore × Nat × Nat) :=
  commitRecords s 0 0 recs

/-- What the confirm branch leaves the user with. -/
inductive BulkAddOutcome
  | reDisplayError (msg : String)
  | successRedirect (msg : String)
deriving DecidableEq, Repr

/-- The `str(e)` of the caught exception class. -/
def dbErrorMessage : DBError → String
  | .integrityError => "IntegrityError"
  | .objectDoesNotExist => "ObjectDoesNotExist"
  | .internalError => "InternalError"

/-- views.py lines 340-363: the confirm branch of
`person_bulk_add_confirmation`.  Returns the store, the session staging
area after the request (`none` = cleared), and the outcome shown.  On a
commit exception the store is untouched, the (re-verified) records stay in
the session and the results page is re-rendered with status 400; on
success the session is cleared and the success summary shows the counts
created. -/
def person_bulk_add_confirmation_confirm (s : CStore)
    (persons_tasks : List UploadRecord) :
    CStore × Option (List UploadRecord) × BulkAddOutcome :=
  let verified := (verify_upload_person_task s.events s.roles persons_tasks).1
  match create_uploaded_persons_tasks s verified with
  | .error e =>
    let reverified := (verify_upload_person_task s.events s.roles verified).1
    (s, some reverified,
     .reDisplayError ("Error saving data to the database: " ++
       dbErrorMessage e ++ ". Please make sure to fix all errors listed below."))
  | .ok (s2, np, nt) =>
    (s2, none,
     .successRedirect ("Successfully uploaded " ++ toString np ++
       " persons and " ++ toString nt ++ " tasks."))

/-- The possible outcomes of `upload_person_task_csv` as the POST branch
of `person_bulk_add` distinguishes them (views.py lines 247-263); the
function itself (workshops/util.py) is not in the sources, so its result
is taken as input here.  `csvError` is `csv.Error`, `unicodeError` is
`UnicodeDecodeError`, and `parsed` carries `(persons_tasks, empty_fields)`. -/
inductive ParseResult
  | csvError (msg : String)
  | unicodeError
  | parsed (records : List UploadRecord) (emptyFields : List String)
deriving DecidableEq, Repr

/-- What the upload POST leaves the user with. -/
inductive BulkUploadOutcome
  | errorMessage (msg : String)
  | redirectConfirmation
deriving DecidableEq, Repr

/-- views.py lines 247-269: handling of the parser's outcome.  Returns the
session staging area (`none` = nothing staged) and the outcome: parse and
decode errors and missing required columns each produce one error message
and stage nothing; otherwise the records are staged and the user is
redirected to the confirmation step. -/
def person_bulk_add_post (charset : String) (pr : ParseResult) :
    Option (List UploadRecord) × BulkUploadOutcome :=
  match pr with
  | .csvError m =>
    (none, .errorMessage ("Error processing uploaded .CSV file: " ++ m))
  | .unicodeError =>
    (none, .errorMessage ("Please provide a file in " ++ charset ++
      " encoding."))
  | .parsed recs missing =>
    if missing.isEmpty then
      (some recs, .redirectConfirmation)
    else
      (none, .errorMessage
        ("The following required fields were not found in the uploaded file: "
          ++ String.intercalate ", " missing))

/-! ### Helper lemmas for the bulk upload -/

/-- The verifier only rewrites the `errors` annotation, from the other
fields; running it twice equals running it once. -/
lemma verify_idempotent (events roles : List String)
    (recs : List UploadRecord) :
    (verify_upload_person_task events roles
      (verify_upload_person_task events roles recs).1).1 =
      (verify_upload_person_task events roles recs).1 := by
  simp only [verify_upload_person_task, List.map_map]
  apply List.map_congr_left
  intro r _
  simp [recordErrors]

/-- Records beyond the updated prefix are untouched by the update loop. -/
lemma applyUpdates_get?_of_le (us :
      List (String × String × String × String × String × String)) :
    ∀ (recs recs' : List UploadRecord) (k : Nat),
      applyUpdates recs us = some recs' → us.length ≤ k →
      recs'.get? k = recs.get? k := by
  induction us with
  | nil =>
    intro recs recs' k h1 _
    simp [applyUpdates] at h1
    rw [h1]
  | cons u tl ih =>
    intro recs recs' k h1 h2
    obtain ⟨p, m, f, e, ev, r⟩ := u
    match recs with
    | [] => simp [applyUpdates] at h1
    | r0 :: rs =>
      simp only [applyUpdates, Option.map_eq_some'] at h1
      obtain ⟨l2, hl2, hrecs'⟩ := h1
      subst hrecs'
      match k, h2 with
      | Nat.succ k2, h2 =>
        simp only [List.get?_cons_succ]
        exact ih rs l2 k2 hl2 (by simpa using h2)

/-- Records inside the updated prefix are replaced by the update of the
corresponding posted tuple. -/
lemma applyUpdates_get?_of_mem (us :
      List (String × String × String × String × String × String)) :
    ∀ (recs recs' : List UploadRecord) (k : Nat)
      (p m f e ev r : String),
      applyUpdates recs us = some recs' →
      us.get? k = some (p, m, f, e, ev, r) →
      recs'.get? k = some (updateRecord p m f e ev r) := by
  induction us with
  | nil =>
    intro recs recs' k p m f e ev r _ h2
    simp at h2
  | cons u tl ih =>
    intro recs recs' k p m f e ev r h1 h2
    obtain ⟨p0, m0, f0, e0, ev0, r0⟩ := u
    match recs with
    | [] => simp [applyUpdates] at h1
    | rec0 :: rs =>
      simp only [applyUpdates, Option.map_eq_some'] at h1
      obtain ⟨l2, hl2, hrecs'⟩ := h1
      subst hrecs'
      match k with
      | 0 =>
        simp only [List.get?_cons_zero, Option.some.injEq, Prod.mk.injEq] at h2
        obtain ⟨hp, hm, hf, he, hev, hr⟩ := h2
        subst hp; subst hm; subst hf; subst he; subst hev; subst hr
        rfl
      | Nat.succ k2 =>
        simp only [List.get?_cons_succ] at h2 ⊢
        exact ih rs l2 k2 p m f e ev r hl2 h2

/-- `zip` truncates to the shortest of the six lists. -/
lemma zip6_length (ps ms fs es evs rs : List String) :
    (zip6 ps ms fs es evs rs).length =
      min ps.length (min ms.length (min fs.length
        (min es.length (min evs.length rs.length)))) := by
  induction ps generalizing ms fs es evs rs with
  | nil =>
    simp [zip6]
  | cons p tl ih =>
    match ms, fs, es, evs, rs with
    | [], _, _, _, _ => simp [zip6]
    | _ :: _, [], _, _, _ => simp [zip6]
    | _ :: _, _ :: _, [], _, _ => simp [zip6]
    | _ :: _, _ :: _, _ :: _, [], _ => simp [zip6]
    | _ :: _, _ :: _, _ :: _, _ :: _, [] => simp [zip6]
    | m :: ms2, f :: fs2, e :: es2, ev :: evs2, r :: rs2 =>
      simp only [zip6, List.length_cons, ih]
      omega

/-! ### Claims C6, C7, C8, C10 -/

/-- C6: when committing the staged batch raises a caught Data Store error
the store is untouched, the staged records stay in the session re-verified,
and the user is sent back to the verification display with a summary error
message; only on success is the session cleared and a success summary with
the created counts shown. -/
theorem c6_commit_error_handling (s : CStore) (recs : List UploadRecord) :
    (∀ e, create_uploaded_persons_tasks s
        (verify_upload_person_task s.events s.roles recs).1 = .error e →
      person_bulk_add_confirmation_confirm s recs =
        (s, some (verify_upload_person_task s.events s.roles recs).1,
         .reDisplayError ("Error saving data to the database: " ++
           dbErrorMessage e ++
           ". Please make sure to fix all errors listed below."))) ∧
    (∀ s2 np nt, create_uploaded_persons_tasks s
        (verify_upload_person_task s.events s.roles recs).1 =
          .ok (s2, np, nt) →
      person_bulk_add_confirmation_confirm s recs =
        (s2, none,
         .successRedirect ("Successfully uploaded " ++ toString np ++
           " persons and " ++ toString nt ++ " tasks."))) := by
  constructor
  · intro e he
    simp [person_bulk_add_confirmation_confirm, he, verify_idempotent]
  · intro s2 np nt hok
    simp [person_bulk_add_confirmation_confirm, hok]

/-- C6 witness: `c6_commit_error_handling` at a store without the record's
event — the commit fails with `ObjectDoesNotExist`, the store is unchanged
and the session keeps the re-verified record. -/
theorem c6_commit_error_handling_witness :
    person_bulk_add_confirmation_confirm
        ⟨[], ["2014-alpha-event"], ["instructor"], [], 0⟩
        [⟨"A", none, "B", none, some "nope", none, none⟩] =
      (⟨[], ["2014-alpha-event"], ["instructor"], [], 0⟩,
       some [⟨"A", none, "B", none, some "nope", none,
         some ["event does not exist"]⟩],
       .reDisplayError ("Error saving data to the database: ObjectDoesNotExist. Please make sure to fix all errors listed below.")) := by
  have h := (c6_commit_error_handling
    ⟨[], ["2014-alpha-event"], ["instructor"], [], 0⟩
    [⟨"A", none, "B", none, some "nope", none, none⟩]).1
    .objectDoesNotExist rfl
  exact h.trans (by rfl)

/-- C7: a parse error or a decoding error is surfaced as one user-facing
message with nothing staged; records are staged and the user redirected to
the confirmation step exactly when parsing succeeds with no required
column missing, and missing required columns are reported by name. -/
theorem c7_upload_parse_handling (charset : String) (pr : ParseResult) :
    ((∃ recs, person_bulk_add_post charset pr =
        (some recs, .redirectConfirmation)) ↔
      (∃ recs, pr = .parsed recs [])) ∧
    (∀ m, pr = .csvError m →
      person_bulk_add_post charset pr =
        (none, .errorMessage
          ("Error processing uploaded .CSV file: " ++ m))) ∧
    (pr = .unicodeError →
      person_bulk_add_post charset pr =
        (none, .errorMessage
          ("Please provide a file in " ++ charset ++ " encoding."))) ∧
    (∀ recs missing, pr = .parsed recs missing → missing ≠ [] →
      person_bulk_add_post charset pr =
        (none, .errorMessage
          ("The following required fields were not found in the uploaded file: "
            ++ String.intercalate ", " missing))) := by
  refine ⟨?_, ?_, ?_, ?_⟩
  · cases pr with
    | csvError m => simp [person_bulk_add_post]
    | unicodeError => simp [person_bulk_add_post]
    | parsed recs missing =>
      by_cases hm : missing = []
      · subst hm
        simp [person_bulk_add_post]
      · simp [person_bulk_add_post, List.isEmpty_iff, hm]
  · intro m hpr
    subst hpr
    rfl
  · intro hpr
    subst hpr
    rfl
  · intro recs missing hpr hne
    subst hpr
    simp [person_bulk_add_post, List.isEmpty_iff, hne]

/-- C7 witness: `c7_upload_parse_handling` at a parse result with two
missing required columns — nothing staged, the columns named. -/
theorem c7_upload_parse_handling_witness :
    person_bulk_add_post "utf-8"
        (.parsed [] ["personal", "family"]) =
      (none, .errorMessage
        ("The following required fields were not found in the uploaded file: personal, family")) := by
  have h := (c7_upload_parse_handling "utf-8"
    (.parsed [] ["personal", "family"])).2.2.2 [] ["personal", "family"]
    rfl (by decide)
  exact h.trans (by rfl)

/-- C8 counterexample: posting an empty `event` (and `role`) leaves the
updated record's `event`/`role` as the empty string, not `None` — the
update loop stores `some ""`, which differs from `none`. -/
theorem c8_event_empty_counterexample :
    ((applyUpdates
        [⟨"Zoe", some "Q", "West", some "z@x", some "2014-alpha-event",
          some "helper", some ["old"]⟩]
        (zip6 ["Fiona"] [""] ["Smith"] [""] [""] [""])).map
      (fun l => l.map UploadRecord.event)) = some [some ""] ∧
    (some "" : Option String) ≠ none := by
  constructor
  · rfl
  · simp

/-- C8 amended: after the confirmation form is resubmitted, each updated
record's `middle` and `email` are `None` whenever the posted value was
empty, while `event` and `role` unconditionally take the posted value —
the empty string stays an empty string — and `errors` is reset. -/
theorem c8_empty_normalization (recs recs' : List UploadRecord)
    (ps ms fs es evs ros : List String) (k : Nat) (p m f e ev ro : String)
    (h1 : applyUpdates recs (zip6 ps ms fs es evs ros) = some recs')
    (h2 : (zip6 ps ms fs es evs ros).get? k = some (p, m, f, e, ev, ro)) :
    recs'.get? k = some
      { personal := p
      , middle := if m = "" then none else some m
      , family := f
      , email := if e = "" then none else some e
      , event := some ev
      , role := some ro
      , errors := none } :=
  applyUpdates_get?_of_mem _ recs recs' k p m f e ev ro h1 h2

/-- C8 amended witness: `c8_empty_normalization` on one record with empty
posted `middle`, `email`, `event` and `role`. -/
theorem c8_empty_normalization_witness :
    ([{ personal := "Fiona", middle := none, family := "Smith",
        email := none, event := some "", role := some "", errors := none }] :
      List UploadRecord).get? 0 =
      some { personal := "Fiona"
           , middle := if ("" : String) = "" then none else some ""
           , family := "Smith"
           , email := if ("" : String) = "" then none else some ""
           , event := some ""
           , role := some ""
           , errors := none } :=
  c8_empty_normalization
    [⟨"Zoe", some "Q", "West", some "z@x", some "ev", some "ro",
      some ["old"]⟩]
    [{ personal := "Fiona", middle := none, family := "Smith",
       email := none, event := some "", role := some "", errors := none }]
    ["Fiona"] [""] ["Smith"] [""] [""] [""] 0 "Fiona" "" "Smith" "" "" ""
    rfl rfl

/-- C10: the confirmation-form update loop overwrites staged records only
at indices below the length of the shortest of the six posted value
lists; every staged record at a larger index — fields and `errors`
annotation alike — is exactly what it was before. -/
theorem c10_update_frame (recs recs' : List UploadRecord)
    (ps ms fs es evs ros : List String) (k : Nat)
    (h1 : applyUpdates recs (zip6 ps ms fs es evs ros) = some recs')
    (h2 : min ps.length (min ms.length (min fs.length
      (min es.length (min evs.length ros.length)))) ≤ k) :
    recs'.get? k = recs.get? k :=
  applyUpdates_get?_of_le _ recs recs' k h1
    (by rw [zip6_length]; exact h2)

/-- C10 witness: `c10_update_frame` with one-element posted lists over a
two-record staging area — the second record survives unchanged. -/
theorem c10_update_frame_witness :
    ([{ personal := "X", middle := none, family := "Y", email := none,
        event := some "", role := some "", errors := none },
      ⟨"Bea", some "M", "Cho", some "b@c", some "ev1", some "ro1",
        some ["x"]⟩] : List UploadRecord).get? 1 =
      ([⟨"Ann", none, "Lee", none, none, none, none⟩,
        ⟨"Bea", some "M", "Cho", some "b@c", some "ev1", some "ro1",
          some ["x"]⟩] : List UploadRecord).get? 1 :=
  c10_update_frame
    [⟨"Ann", none, "Lee", none, none, none, none⟩,
     ⟨"Bea", some "M", "Cho", some "b@c", some "ev1", some "ro1",
       some ["x"]⟩]
    [{ personal := "X", middle := none, family := "Y", email := none,
       event := some "", role := some "", errors := none },
     ⟨"Bea", some "M", "Cho", some "b@c", some "ev1", some "ro1",
       some ["x"]⟩]
    ["X"] [""] ["Y"] [""] [""] [""] 1 rfl (by decide)

/-! ### Pagination (`_get_pagination_items`, views.py lines 744-778) -/

/-- views.py line 43. -/
def ITEMS_PER_PAGE : Int := 25

/-- Base-10 digit accumulator: `some` exactly when every character is a
digit (and the input is read left to right). -/
def digitsToNatAux : List Char → Nat → Option Nat
  | [], acc => some acc
  | c :: cs, acc =>
    if 48 ≤ c.toNat ∧ c.toNat ≤ 57 then
      digitsToNatAux cs (acc * 10 + (c.toNat - 48))
    else none

/-- Python's `int(str)`, written to evaluate: an optional sign followed by
at least one decimal digit.  (Surrounding whitespace, which `int()` also
accepts, is not modelled.) -/
def pyInt : String → Option Int
  | s =>
    match s.data with
    | [] => none
    | '-' :: [] => none
    | '-' :: c :: cs => (digitsToNatAux (c :: cs) 0).map (fun n => -(n : Int))
    | c :: cs => (digitsToNatAux (c :: cs) 0).map (fun n => (n : Int))

/-- The resolved `items_per_page` value: either the literal 'all' or a
number of items per page. -/
inductive ItemsSetting
  | all
  | perPage (n : Int)
deriving DecidableEq, Repr

/-- views.py lines 748-753: `GET.get('items_per_page', ITEMS_PER_PAGE)`;
anything other than 'all' goes through `int()`, falling back to the
default 25 on `ValueError`. -/
def resolveItems (itemsParam : Option String) : ItemsSetting :=
  match itemsParam with
  | none => .perPage ITEMS_PER_PAGE
  | some s =>
    if s = "all" then .all
    else
      match pyInt s with
      | some n => .perPage n
      | none => .perPage ITEMS_PER_PAGE

/-- Django 1.7 `Paginator.num_pages` (an external library collaborator)
with `orphans = 0` and `allow_empty_first_page`:
`ceil(max(1, count) / per_page)`; meaningful for positive `per_page`. -/
def numPages (count perPage : Nat) : Nat :=
  (max 1 count + perPage - 1) / perPage

/-- Django 1.7 `Page.object_list`:
`object_list[(number-1)*per_page : number*per_page]`. -/
def pageItems {α : Type} (objects : List α) (perPage number : Nat) :
    List α :=
  (objects.drop ((number - 1) * perPage)).take perPage

/-- The two exceptions `Paginator.validate_number` raises. -/
inductive PageErr
  | notAnInteger
  | emptyPage
deriving DecidableEq, Repr

/-- Django 1.7 `Paginator.validate_number`: `int()` failure (`TypeError`
for the missing parameter, `ValueError` for a non-numeric one) raises
`PageNotAnInteger`; a number below 1 or above `num_pages` raises
`EmptyPage`, except that an empty first page is allowed.  The argument
here is the already-parsed page number. -/
def validate_number (np : Nat) (page : Option Int) : Except PageErr Int :=
  match page with
  | none => .error .notAnInteger
  | some n =>
    if n < 1 then .error .emptyPage
    else if (np : Int) < n then
      if n = 1 then .ok n else .error .emptyPage
    else .ok n

/-- views.py lines 744-778: 'all' returns the whole sequence; otherwise
the requested page is delivered, with the first page on
`PageNotAnInteger` and the last page on `EmptyPage` (those recovery calls
`paginator.page(1)` / `paginator.page(paginator.num_pages)` always
succeed for positive per-page, so they are inlined as slices).  `none`
models a non-positive per-page count, where Django raises
(`ZeroDivisionError`) or slices nonsensically — the view never guards it
and no claim touches it. -/
def _get_pagination_items {α : Type} (itemsParam pageParam : Option String)
    (objects : List α) : Option (List α) :=
  match resolveItems itemsParam with
  | .all => some objects
  | .perPage n =>
    if n ≤ 0 then none
    else
      let per := n.toNat
      let np := numPages objects.length per
      match validate_number np (pageParam.bind pyInt) with
      | .ok k => some (pageItems objects per k.toNat)
      | .error .notAnInteger => some (pageItems objects per 1)
      | .error .emptyPage => some (pageItems objects per np)

/-- A paginator always has at least one page. -/
lemma one_le_numPages (count per : Nat) (h : 0 < per) :
    1 ≤ numPages count per := by
  rw [numPages, Nat.le_div_iff_mul_le h]
  have hm : 1 ≤ max 1 count := le_max_left 1 count
  omega

/-! ### Claim C9 -/

/-- C9: 'all' returns the whole sequence unpaginated; any other
non-integer `items_per_page` falls back to the default of 25; a
non-integer (or missing) `page` delivers the first page; an integer
`page` outside the valid range delivers the last page. -/
theorem c9_pagination {α : Type} (itemsParam pageParam : Option String)
    (objects : List α) :
    (itemsParam = some "all" →
      _get_pagination_items itemsParam pageParam objects = some objects) ∧
    (∀ s, itemsParam = some s → s ≠ "all" → pyInt s = none →
      resolveItems itemsParam = .perPage 25 ∧
      _get_pagination_items itemsParam pageParam objects =
        _get_pagination_items none pageParam objects) ∧
    (∀ n, resolveItems itemsParam = .perPage n → 0 < n →
      pageParam.bind pyInt = none →
      _get_pagination_items itemsParam pageParam objects =
        some (pageItems objects n.toNat 1)) ∧
    (∀ n k, resolveItems itemsParam = .perPage n → 0 < n →
      pageParam.bind pyInt = some k →
      (k < 1 ∨ (numPages objects.length n.toNat : Int) < k) →
      _get_pagination_items itemsParam pageParam objects =
        some (pageItems objects n.toNat
          (numPages objects.length n.toNat))) := by
  refine ⟨?_, ?_, ?_, ?_⟩
  · intro h
    subst h
    simp [_get_pagination_items, resolveItems]
  · intro s h hne hint
    subst h
    constructor
    · simp [resolveItems, hne, hint, ITEMS_PER_PAGE]
    · simp [_get_pagination_items, resolveItems, hne, hint]
  · intro n hres hpos hnone
    simp only [_get_pagination_items, hres]
    rw [if_neg (by omega)]
    simp [hnone, validate_number]
  · intro n k hres hpos hsome hout
    simp only [_get_pagination_items, hres]
    rw [if_neg (by omega)]
    simp only [hsome, validate_number]
    rcases hout with hk | hk
    · rw [if_pos hk]
    · have hnp := one_le_numPages objects.length n.toNat (by omega)
      have h1 : ¬ k < 1 := by omega
      have h2 : k ≠ 1 := by omega
      rw [if_neg h1, if_pos hk, if_neg h2]

/-- C9 witness: `c9_pagination` with three objects, two per page, and the
out-of-range page 7 — the last page is delivered. -/
theorem c9_pagination_witness :
    _get_pagination_items (some "2") (some "7") [10, 20, 30] =
      some (pageItems [10, 20, 30] 2 (numPages 3 2)) :=
  (c9_pagination (some "2") (some "7") [10, 20, 30]).2.2.2 2 7
    rfl (by omega) rfl (by right; decide)

end Amy
